import Mathlib

/-!
Verification of the 3D math and projection core of the canvas repository.

The matrix algebra library (`src/lib/mat4.ts`) is embedded over the real
numbers: a `Mat4` is a record of 16 reals in the source's column-major
array order (field `m i` corresponds to array index `i`), and each library
function is translated expression-for-expression from the TypeScript.
The manual-projection engine (`src/cubes.ts`) is embedded with the canvas
globals (`FIELD_OF_VIEW`, viewport width and height) passed explicitly,
and `Cube.draw` returns the list of 2D line segments it would emit to the
drawing context.
-/

open Real

namespace Canvas

noncomputable section

/-- Triple of reals, mirroring the `Vec3` / `Coord3D` tuples of the source. -/
abbrev Vec3 := ℝ × ℝ × ℝ

/-- Sixteen reals in column-major order, mirroring the `Float32Array` of
length 16 used by `src/lib/mat4.ts`; field `mN` is array index `N`. -/
@[ext]
structure Mat4 where
  m0 : ℝ
  m1 : ℝ
  m2 : ℝ
  m3 : ℝ
  m4 : ℝ
  m5 : ℝ
  m6 : ℝ
  m7 : ℝ
  m8 : ℝ
  m9 : ℝ
  m10 : ℝ
  m11 : ℝ
  m12 : ℝ
  m13 : ℝ
  m14 : ℝ
  m15 : ℝ

/-- Embeds `create` of `src/lib/mat4.ts`: the 4x4 identity matrix. -/
def create : Mat4 :=
  ⟨1, 0, 0, 0,
   0, 1, 0, 0,
   0, 0, 1, 0,
   0, 0, 0, 1⟩

/-- Embeds `perspective` of `src/lib/mat4.ts`.  The TypeScript argument
`far : number | null` is modelled as `Option ℝ`: `none` stands for the
`null` / `Infinity` branch (`far != null && far !== Infinity` fails),
`some fr` for a finite far plane. -/
def perspective (fovy aspect near : ℝ) (far : Option ℝ) : Mat4 :=
  let f := 1 / Real.tan (fovy / 2)
  let base : Mat4 :=
    ⟨f / aspect, 0, 0, 0,
     0, f, 0, 0,
     0, 0, 0, -1,
     0, 0, 0, 0⟩
  match far with
  | some fr =>
      let nf := 1 / (near - fr)
      { base with m10 := (fr + near) * nf, m14 := 2 * fr * near * nf }
  | none =>
      { base with m10 := -1, m14 := -2 * near }

/-- Embeds `rotate` of `src/lib/mat4.ts`: Rodrigues rotation block built
from the normalized axis, multiplied onto the upper 3x4 block of `a`,
with the translation column `a[12..15]` copied through.  `Math.hypot`
is the Euclidean norm. -/
def rotate (a : Mat4) (rad : ℝ) (axis : Vec3) : Mat4 :=
  let len := 1 / Real.sqrt (axis.1 * axis.1 + axis.2.1 * axis.2.1 + axis.2.2 * axis.2.2)
  let x := axis.1 * len
  let y := axis.2.1 * len
  let z := axis.2.2 * len
  let s := Real.sin rad
  let c := Real.cos rad
  let t := 1 - c
  let b00 := x * x * t + c
  let b01 := y * x * t + z * s
  let b02 := z * x * t - y * s
  let b10 := x * y * t - z * s
  let b11 := y * y * t + c
  let b12 := z * y * t + x * s
  let b20 := x * z * t + y * s
  let b21 := y * z * t - x * s
  let b22 := z * z * t + c
  ⟨a.m0 * b00 + a.m4 * b01 + a.m8 * b02,
   a.m1 * b00 + a.m5 * b01 + a.m9 * b02,
   a.m2 * b00 + a.m6 * b01 + a.m10 * b02,
   a.m3 * b00 + a.m7 * b01 + a.m11 * b02,
   a.m0 * b10 + a.m4 * b11 + a.m8 * b12,
   a.m1 * b10 + a.m5 * b11 + a.m9 * b12,
   a.m2 * b10 + a.m6 * b11 + a.m10 * b12,
   a.m3 * b10 + a.m7 * b11 + a.m11 * b12,
   a.m0 * b20 + a.m4 * b21 + a.m8 * b22,
   a.m1 * b20 + a.m5 * b21 + a.m9 * b22,
   a.m2 * b20 + a.m6 * b21 + a.m10 * b22,
   a.m3 * b20 + a.m7 * b21 + a.m11 * b22,
   a.m12, a.m13, a.m14, a.m15⟩

/-- Embeds `translate` of `src/lib/mat4.ts`: first 12 elements copied,
translation column recomputed as `rotationPart * v + oldTranslation`. -/
def translate (a : Mat4) (v : Vec3) : Mat4 :=
  ⟨a.m0, a.m1, a.m2, a.m3,
   a.m4, a.m5, a.m6, a.m7,
   a.m8, a.m9, a.m10, a.m11,
   a.m0 * v.1 + a.m4 * v.2.1 + a.m8 * v.2.2 + a.m12,
   a.m1 * v.1 + a.m5 * v.2.1 + a.m9 * v.2.2 + a.m13,
   a.m2 * v.1 + a.m6 * v.2.1 + a.m10 * v.2.2 + a.m14,
   a.m3 * v.1 + a.m7 * v.2.1 + a.m11 * v.2.2 + a.m15⟩

/-- Application of a column-major `Mat4` to a homogeneous 4-vector:
output component `i` is `Σ_j m[4*j + i] * v_j`.  This is the standard
reading of the column-major layout stated in the spec. -/
def mulVec4 (m : Mat4) (v : ℝ × ℝ × ℝ × ℝ) : ℝ × ℝ × ℝ × ℝ :=
  (m.m0 * v.1 + m.m4 * v.2.1 + m.m8 * v.2.2.1 + m.m12 * v.2.2.2,
   m.m1 * v.1 + m.m5 * v.2.1 + m.m9 * v.2.2.1 + m.m13 * v.2.2.2,
   m.m2 * v.1 + m.m6 * v.2.1 + m.m10 * v.2.2.1 + m.m14 * v.2.2.2,
   m.m3 * v.1 + m.m7 * v.2.1 + m.m11 * v.2.2.1 + m.m15 * v.2.2.2)

/-- Normalized-device-coordinate depth of a camera-space point under a
matrix: apply the matrix to `(x, y, z, 1)` and divide the resulting `z`
component by the resulting `w` component (homogeneous divide). -/
def ndcDepth (m : Mat4) (p : Vec3) : ℝ :=
  let c := mulVec4 m (p.1, p.2.1, p.2.2, 1)
  c.2.2.1 / c.2.2.2

/-- Rodrigues rotation matrix (row-major 3x3 entries `rIJ` = row `I`,
column `J`) for angle `rad` about the unit axis `u`, written from the
spec's description: `cos θ · I + sin θ · K + (1 - cos θ) · u uᵀ` where
`K` is the cross-product matrix of `u`. -/
structure Mat3 where
  r00 : ℝ
  r01 : ℝ
  r02 : ℝ
  r10 : ℝ
  r11 : ℝ
  r12 : ℝ
  r20 : ℝ
  r21 : ℝ
  r22 : ℝ

/-- Rodrigues-form rotation block for angle `rad` about unit axis `u`,
following the spec's parameterization by `sin(angle)`, `cos(angle)` and
`1 - cos(angle)`. -/
def rodrigues (rad : ℝ) (u : Vec3) : Mat3 :=
  let s := Real.sin rad
  let c := Real.cos rad
  let t := 1 - c
  ⟨t * u.1 * u.1 + c, t * u.1 * u.2.1 - s * u.2.2, t * u.1 * u.2.2 + s * u.2.1,
   t * u.1 * u.2.1 + s * u.2.2, t * u.2.1 * u.2.1 + c, t * u.2.1 * u.2.2 - s * u.1,
   t * u.1 * u.2.2 - s * u.2.1, t * u.2.1 * u.2.2 + s * u.1, t * u.2.2 * u.2.2 + c⟩

/-- Normalization of a vector by its Euclidean length, as the spec words
it: divide each component by `sqrt(x² + y² + z²)`. -/
def normalize (v : Vec3) : Vec3 :=
  let n := Real.sqrt (v.1 * v.1 + v.2.1 * v.2.1 + v.2.2 * v.2.2)
  (v.1 / n, v.2.1 / n, v.2.2 / n)

/-- Right-composition of a 3x3 rotation onto the upper 3x4 block of a
column-major `Mat4` (`result = inputRotationPart * newRotation`), with the
translation column passed through verbatim — the spec's description of
what `rotate` computes. -/
def composeUpper (a : Mat4) (r : Mat3) : Mat4 :=
  ⟨a.m0 * r.r00 + a.m4 * r.r10 + a.m8 * r.r20,
   a.m1 * r.r00 + a.m5 * r.r10 + a.m9 * r.r20,
   a.m2 * r.r00 + a.m6 * r.r10 + a.m10 * r.r20,
   a.m3 * r.r00 + a.m7 * r.r10 + a.m11 * r.r20,
   a.m0 * r.r01 + a.m4 * r.r11 + a.m8 * r.r21,
   a.m1 * r.r01 + a.m5 * r.r11 + a.m9 * r.r21,
   a.m2 * r.r01 + a.m6 * r.r11 + a.m10 * r.r21,
   a.m3 * r.r01 + a.m7 * r.r11 + a.m11 * r.r21,
   a.m0 * r.r02 + a.m4 * r.r12 + a.m8 * r.r22,
   a.m1 * r.r02 + a.m5 * r.r12 + a.m9 * r.r22,
   a.m2 * r.r02 + a.m6 * r.r12 + a.m10 * r.r22,
   a.m3 * r.r02 + a.m7 * r.r12 + a.m11 * r.r22,
   a.m12, a.m13, a.m14, a.m15⟩

/-- A renderable cube entity of `src/cubes.ts`: world position and scale
radius.  The vertex set and edge list are fixed class data, embedded
below as `cubeVertices` and `cubeLines`. -/
structure Cube where
  x : ℝ
  y : ℝ
  z : ℝ
  radius : ℝ

/-- The fixed edge list `Cube.lines` of `src/cubes.ts`: 12 pairs of
vertex indices. -/
def cubeLines : List (Nat × Nat) :=
  [(0, 1), (1, 3), (3, 2), (2, 0), (2, 6), (3, 7),
   (0, 4), (1, 5), (6, 7), (6, 4), (7, 5), (4, 5)]

/-- The fixed vertex set `Cube.vertices` of `src/cubes.ts`: the 8 corners
of a unit cube. -/
def cubeVertices : List Vec3 :=
  [(-1, -1, -1), (1, -1, -1), (-1, 1, -1), (1, 1, -1),
   (-1, -1, 1), (1, -1, 1), (-1, 1, 1), (1, 1, 1)]

/-- Embeds `Cube.project` of `src/cubes.ts`.  The globals
`FIELD_OF_VIEW`, `canvas.clientWidth` and `canvas.clientHeight` are the
explicit parameters `F`, `w`, `h`; the result is the record
`(size, x, y)` the method returns. -/
def Cube.project (F w h x y z : ℝ) : ℝ × ℝ × ℝ :=
  let sizeProjection := F / (F + z)
  let xProject := x * sizeProjection + w / 2
  let yProject := y * sizeProjection + h / 2
  (sizeProjection, xProject, yProject)

/-- Embeds `Cube.draw` of `src/cubes.ts` as the list of 2D line segments
emitted to the canvas context: empty when the entity is culled
(`this.z < -FIELD_OF_VIEW + this.radius`), otherwise one segment per edge
of `cubeLines`, each endpoint computed as
`entity.position + entity.radius * localVertex` and projected through
`Cube.project`. -/
def Cube.draw (F w h : ℝ) (e : Cube) : List ((ℝ × ℝ) × (ℝ × ℝ)) :=
  if e.z < -F + e.radius then []
  else
    cubeLines.map (fun l =>
      let vA := cubeVertices.getD l.1 (0, 0, 0)
      let vB := cubeVertices.getD l.2 (0, 0, 0)
      let v1 : Vec3 := (e.x + e.radius * vA.1, e.y + e.radius * vA.2.1, e.z + e.radius * vA.2.2)
      let v2 : Vec3 := (e.x + e.radius * vB.1, e.y + e.radius * vB.2.1, e.z + e.radius * vB.2.2)
      let p1 := Cube.project F w h v1.1 v1.2.1 v1.2.2
      let p2 := Cube.project F w h v2.1 v2.2.1 v2.2.2
      ((p1.2.1, p1.2.2), (p2.2.1, p2.2.2)))

end

/-- C1: for every `fovy ∈ (0, π)`, `aspect > 0`, `near > 0` and finite
`far`, `perspective` returns the column-major matrix with element 0 equal
to `(1/tan(fovy/2))/aspect`, element 5 equal to `1/tan(fovy/2)`, element
10 equal to `(far + near) * (1/(near - far))`, element 14 equal to
`2 * far * near * (1/(near - far))`, element 11 equal to `-1` and every
other element `0`; with `far` null or infinite, element 10 is `-1` and
element 14 is `-2 * near`, the rest unchanged. -/
theorem perspective_elems (fovy aspect near far : ℝ)
    (h1 : 0 < fovy) (h2 : fovy < π) (h3 : 0 < aspect) (h4 : 0 < near) :
    perspective fovy aspect near (some far) =
      ⟨(1 / Real.tan (fovy / 2)) / aspect, 0, 0, 0,
       0, 1 / Real.tan (fovy / 2), 0, 0,
       0, 0, (far + near) * (1 / (near - far)), -1,
       0, 0, 2 * far * near * (1 / (near - far)), 0⟩ ∧
    perspective fovy aspect near none =
      ⟨(1 / Real.tan (fovy / 2)) / aspect, 0, 0, 0,
       0, 1 / Real.tan (fovy / 2), 0, 0,
       0, 0, -1, -1,
       0, 0, -2 * near, 0⟩ :=
  ⟨rfl, rfl⟩

/-- Witness for C1 at `fovy = π/2`, `aspect = 1`, `near = 1`, `far = 2`. -/
theorem perspective_elems_witness :
    ((0:ℝ) < π/2 ∧ π/2 < π ∧ (0:ℝ) < 1) ∧
    (perspective (π/2) 1 1 (some 2) =
      ⟨(1 / Real.tan (π/2 / 2)) / 1, 0, 0, 0,
       0, 1 / Real.tan (π/2 / 2), 0, 0,
       0, 0, (2 + 1) * (1 / (1 - 2)), -1,
       0, 0, 2 * 2 * 1 * (1 / (1 - 2)), 0⟩ ∧
    perspective (π/2) 1 1 none =
      ⟨(1 / Real.tan (π/2 / 2)) / 1, 0, 0, 0,
       0, 1 / Real.tan (π/2 / 2), 0, 0,
       0, 0, -1, -1,
       0, 0, -2 * 1, 0⟩) :=
  ⟨⟨by positivity, half_lt_self Real.pi_pos, one_pos⟩,
   perspective_elems (π/2) 1 1 2 (by positivity) (half_lt_self Real.pi_pos) one_pos one_pos⟩

/-- C5: `translate` copies the first 12 elements of the input matrix
unchanged and recomputes the translation column as the input's rotational
part applied to `v` plus the existing translation column; in particular
the translation column of `translate create v` is exactly `v`. -/
theorem translate_elems (a : Mat4) (v : Vec3) :
    ((translate a v).m0 = a.m0 ∧ (translate a v).m1 = a.m1 ∧
     (translate a v).m2 = a.m2 ∧ (translate a v).m3 = a.m3 ∧
     (translate a v).m4 = a.m4 ∧ (translate a v).m5 = a.m5 ∧
     (translate a v).m6 = a.m6 ∧ (translate a v).m7 = a.m7 ∧
     (translate a v).m8 = a.m8 ∧ (translate a v).m9 = a.m9 ∧
     (translate a v).m10 = a.m10 ∧ (translate a v).m11 = a.m11) ∧
    ((translate a v).m12 = a.m0 * v.1 + a.m4 * v.2.1 + a.m8 * v.2.2 + a.m12 ∧
     (translate a v).m13 = a.m1 * v.1 + a.m5 * v.2.1 + a.m9 * v.2.2 + a.m13 ∧
     (translate a v).m14 = a.m2 * v.1 + a.m6 * v.2.1 + a.m10 * v.2.2 + a.m14 ∧
     (translate a v).m15 = a.m3 * v.1 + a.m7 * v.2.1 + a.m11 * v.2.2 + a.m15) ∧
    ((translate create v).m12 = v.1 ∧ (translate create v).m13 = v.2.1 ∧
     (translate create v).m14 = v.2.2) := by
  refine ⟨⟨rfl, rfl, rfl, rfl, rfl, rfl, rfl, rfl, rfl, rfl, rfl, rfl⟩,
    ⟨rfl, rfl, rfl, rfl⟩, ?_, ?_, ?_⟩ <;> simp [translate, create]

/-- C2: for every `x`, `y`, `z` and field-of-view constant `F` with
`F + z` nonzero, `Cube.project` returns size `F / (F + z)`, x-coordinate
`x * (F / (F + z)) + w / 2` and y-coordinate `y * (F / (F + z)) + h / 2`
where `w`, `h` are the viewport dimensions. -/
theorem project_formula (F w h x y z : ℝ) (hz : F + z ≠ 0) :
    Cube.project F w h x y z =
      (F / (F + z), x * (F / (F + z)) + w / 2, y * (F / (F + z)) + h / 2) :=
  rfl

/-- Witness for C2: the spec's end-to-end scenario — field-of-view
constant 400, viewport 800x600, world point `(-10, -10, -10)` — yields
size `400/390`, screen x `-10 * (400/390) + 400` and screen y
`-10 * (400/390) + 300`. -/
theorem project_formula_witness :
    (400:ℝ) + (-10) ≠ 0 ∧
    Cube.project 400 800 600 (-10) (-10) (-10) =
      (400 / 390, -10 * (400 / 390) + 400, -10 * (400 / 390) + 300) :=
  ⟨by norm_num, by
    rw [project_formula 400 800 600 (-10) (-10) (-10) (by norm_num)]
    norm_num⟩

/-- C3: `Cube.draw` emits no line segments exactly when
`entity.z < -F + entity.radius`, and otherwise emits all 12 edges. -/
theorem draw_cull (F w h : ℝ) (e : Cube) :
    (Cube.draw F w h e = [] ↔ e.z < -F + e.radius) ∧
    (¬ e.z < -F + e.radius → (Cube.draw F w h e).length = 12) := by
  refine ⟨⟨fun hemp => ?_, fun hc => by rw [Cube.draw, if_pos hc]⟩, fun hnot => ?_⟩
  · by_contra hnot
    rw [Cube.draw, if_neg hnot] at hemp
    simp [cubeLines] at hemp
  · rw [Cube.draw, if_neg hnot]
    simp [cubeLines]

/-- Witness for C3: under field-of-view constant 400, the entity at
`z = -500` with radius 10 is skipped, while the entity at `z = -100` with
radius 10 draws its 12 edges. -/
theorem draw_cull_witness :
    Cube.draw 400 800 600 ⟨0, 0, -500, 10⟩ = [] ∧
    (Cube.draw 400 800 600 ⟨0, 0, -100, 10⟩).length = 12 :=
  ⟨(draw_cull 400 800 600 ⟨0, 0, -500, 10⟩).1.mpr (by norm_num),
   (draw_cull 400 800 600 ⟨0, 0, -100, 10⟩).2 (by norm_num)⟩

/-- C4: for every `fov`, `aspect` and `far > near > 0` with `far` finite,
the perspective matrix maps the camera-space point `(0, 0, -near)` to NDC
depth `-1` after homogeneous divide, and `(0, 0, -far)` to `+1`. -/
theorem perspective_depth (fov aspect near far : ℝ)
    (h1 : 0 < near) (h2 : near < far) :
    ndcDepth (perspective fov aspect near (some far)) (0, 0, -near) = -1 ∧
    ndcDepth (perspective fov aspect near (some far)) (0, 0, -far) = 1 := by
  have hn : near ≠ 0 := ne_of_gt h1
  have hf : far ≠ 0 := ne_of_gt (h1.trans h2)
  have hnf : near - far ≠ 0 := sub_ne_zero.mpr (ne_of_lt h2)
  constructor <;>
    · simp only [ndcDepth, mulVec4, perspective]
      field_simp
      ring

/-- Witness for C4 at `fov = 1`, `aspect = 1`, `near = 1`, `far = 2`. -/
theorem perspective_depth_witness :
    ((0:ℝ) < 1 ∧ (1:ℝ) < 2) ∧
    (ndcDepth (perspective 1 1 1 (some 2)) (0, 0, -1) = -1 ∧
     ndcDepth (perspective 1 1 1 (some 2)) (0, 0, -2) = 1) :=
  ⟨⟨one_pos, one_lt_two⟩, perspective_depth 1 1 1 2 one_pos one_lt_two⟩

/-- C6: for every matrix, angle and non-zero axis, `rotate` passes the
translation column (elements 12–15) through verbatim and its upper 3x4
block is the input's block composed on the right with the Rodrigues
rotation for the normalized axis. -/
theorem rotate_block (a : Mat4) (rad : ℝ) (axis : Vec3)
    (h : axis ≠ ((0:ℝ), (0:ℝ), (0:ℝ))) :
    rotate a rad axis = composeUpper a (rodrigues rad (normalize axis)) ∧
    ((rotate a rad axis).m12 = a.m12 ∧ (rotate a rad axis).m13 = a.m13 ∧
     (rotate a rad axis).m14 = a.m14 ∧ (rotate a rad axis).m15 = a.m15) := by
  refine ⟨?_, rfl, rfl, rfl, rfl⟩
  ext <;> simp only [rotate, composeUpper, rodrigues, normalize] <;> ring

/-- Witness for C6 at `a = create`, angle `0`, axis `(0, 0, 1)`. -/
theorem rotate_block_witness :
    (((0:ℝ), (0:ℝ), (1:ℝ)) : Vec3) ≠ ((0:ℝ), (0:ℝ), (0:ℝ)) ∧
    (rotate create 0 (0, 0, 1) =
       composeUpper create (rodrigues 0 (normalize (0, 0, 1))) ∧
     ((rotate create 0 (0, 0, 1)).m12 = create.m12 ∧
      (rotate create 0 (0, 0, 1)).m13 = create.m13 ∧
      (rotate create 0 (0, 0, 1)).m14 = create.m14 ∧
      (rotate create 0 (0, 0, 1)).m15 = create.m15)) :=
  ⟨by simp, rotate_block create 0 (0, 0, 1) (by simp)⟩

/-- C7: rotate and translate do not commute — the translation column of
`rotate (translate create (5,0,0)) (π/2) (0,0,1)` differs from the
translation column of `translate (rotate create (π/2) (0,0,1)) (5,0,0)`. -/
theorem rotate_translate_order :
    ((rotate (translate create (5, 0, 0)) (π/2) (0, 0, 1)).m12,
     (rotate (translate create (5, 0, 0)) (π/2) (0, 0, 1)).m13,
     (rotate (translate create (5, 0, 0)) (π/2) (0, 0, 1)).m14) ≠
    ((translate (rotate create (π/2) (0, 0, 1)) (5, 0, 0)).m12,
     (translate (rotate create (π/2) (0, 0, 1)) (5, 0, 0)).m13,
     (translate (rotate create (π/2) (0, 0, 1)) (5, 0, 0)).m14) := by
  have hA : (rotate (translate create (5, 0, 0)) (π/2) (0, 0, 1)).m13 = 0 := by
    norm_num [rotate, translate, create]
  have hB : (translate (rotate create (π/2) (0, 0, 1)) (5, 0, 0)).m13 = 5 := by
    norm_num [rotate, translate, create, Real.sqrt_one,
      Real.sin_pi_div_two, Real.cos_pi_div_two]
  intro hEq
  have h13 := congrArg (fun p : ℝ × ℝ × ℝ => p.2.1) hEq
  simp only [hA, hB] at h13
  norm_num at h13

/-- C8: for every `near` with `0 < near ≤ 1`, `fov ∈ (0, π)` and
`aspect > 0`, the NDC depths of the point `(0, 0, -100)` under
`perspective` with `far = 10⁹` and with infinite far differ by less than
`10⁻⁴`. -/
theorem perspective_far_convergence (fov aspect near : ℝ)
    (h1 : 0 < near) (h2 : near ≤ 1) (h3 : 0 < fov) (h4 : fov < π)
    (h5 : 0 < aspect) :
    |ndcDepth (perspective fov aspect near (some 1000000000)) (0, 0, -100) -
     ndcDepth (perspective fov aspect near none) (0, 0, -100)| < 1 / 10000 := by
  have hne : near - 1000000000 ≠ 0 := by nlinarith
  have hne2 : (1000000000:ℝ) - near ≠ 0 := by nlinarith
  have key : ndcDepth (perspective fov aspect near (some 1000000000)) (0, 0, -100) -
      ndcDepth (perspective fov aspect near none) (0, 0, -100) =
      2 * near * (100 - near) / (100 * (1000000000 - near)) := by
    simp only [ndcDepth, mulVec4, perspective]
    field_simp
    ring
  have hden : (0:ℝ) < 100 * (1000000000 - near) := by nlinarith
  have hnum : (0:ℝ) ≤ 2 * near * (100 - near) := by nlinarith
  rw [key, abs_of_nonneg (div_nonneg hnum hden.le), div_lt_iff₀ hden]
  nlinarith [sq_nonneg near]

/-- Witness for C8 at `fov = π/2`, `aspect = 1`, `near = 1`. -/
theorem perspective_far_convergence_witness :
    ((0:ℝ) < 1 ∧ (1:ℝ) ≤ 1 ∧ (0:ℝ) < π/2 ∧ π/2 < π ∧ (0:ℝ) < 1) ∧
    |ndcDepth (perspective (π/2) 1 1 (some 1000000000)) (0, 0, -100) -
     ndcDepth (perspective (π/2) 1 1 none) (0, 0, -100)| < 1 / 10000 :=
  ⟨⟨one_pos, le_refl 1, by positivity, half_lt_self Real.pi_pos, one_pos⟩,
   perspective_far_convergence (π/2) 1 1 one_pos (le_refl 1) (by positivity)
     (half_lt_self Real.pi_pos) one_pos⟩

/-- C10: successive translations compose additively:
`translate (translate a u) v = translate a (u + v)` exactly, with the
vector sum taken componentwise. -/
theorem translate_translate (a : Mat4) (u v : Vec3) :
    translate (translate a u) v =
      translate a (u.1 + v.1, u.2.1 + v.2.1, u.2.2 + v.2.2) := by
  ext <;> simp [translate] <;> ring

end Canvas
